import Mathlib

/-!
Verification of the opencode-claude-mem plugin (`src/index.ts`,
`src/worker-client.ts`) against its natural-language specification.

The TypeScript code is shallowly embedded: JSON values become an inductive
type, each `WorkerClient` method becomes a pure function of the HTTP outcome
the worker produced for it, and the plugin's hook callbacks become explicit
state-passing functions that also return the list of remote calls they make
(the "effect trace").  The host runtime and the worker are modelled as an
oracle (`Env`) supplying the outcome of each remote interaction.
-/

mutual

/-- A JSON value, as produced by `response.json()`.  Numbers are modelled as
integers (no claim involves numeric payloads).  Arrays and objects are
separate mutual inductives so that all functions below are structurally
recursive and compute by `rfl`. -/
inductive JsonVal where
  | null
  | bool (b : Bool)
  | num (n : Int)
  | str (s : String)
  | arr (elems : JsonArr)
  | obj (fields : JsonObj)

/-- A JSON array: a list of JSON values. -/
inductive JsonArr where
  | nil
  | cons (hd : JsonVal) (tl : JsonArr)

/-- A JSON object: an association list of string keys and JSON values
(parsed JSON has unique keys). -/
inductive JsonObj where
  | nil
  | cons (key : String) (val : JsonVal) (tl : JsonObj)

end

/-- JavaScript truthiness of a JSON value (`data && ...` in `getContext`). -/
def JsonVal.truthy : JsonVal → Bool
  | .null => false
  | .bool b => b
  | .num n => n != 0
  | .str s => s != ""
  | .arr _ => true
  | .obj _ => true

/-- Look a key up in a JSON object. -/
def JsonObj.lookup (k : String) : JsonObj → Option JsonVal
  | .nil => none
  | .cons key v tl => if key = k then some v else JsonObj.lookup k tl

/-- `data.content` when it is a string (`typeof data.content === "string"`),
and `none` otherwise.  Property access on a non-object yields `undefined` in
JavaScript, hence `none` here. -/
def JsonVal.contentStr : JsonVal → Option String
  | .obj fields =>
    match fields.lookup "content" with
    | some (.str s) => some s
    | _ => none
  | _ => none

/-- One hexadecimal digit, for `\u00XX` escapes in serialized strings. -/
def hexDigit (n : Nat) : Char :=
  if n < 10 then Char.ofNat (48 + n) else Char.ofNat (87 + n)

/-- How `JSON.stringify` escapes one character inside a string literal. -/
def jsonEscapeChar (c : Char) : String :=
  if c = '"' then "\\\""
  else if c = '\\' then "\\\\"
  else if c = '\n' then "\\n"
  else if c = '\r' then "\\r"
  else if c = '\t' then "\\t"
  else if c = '\x08' then "\\b"
  else if c = '\x0c' then "\\f"
  else if c.toNat < 32 then
    "\\u00" ++ String.mk [hexDigit (c.toNat / 16), hexDigit (c.toNat % 16)]
  else String.singleton c

/-- `JSON.stringify` of a string: quoted and escaped. -/
def jsonQuote (s : String) : String :=
  "\"" ++ String.join (s.data.map jsonEscapeChar) ++ "\""

/-- Whether a JSON array is empty. -/
def JsonArr.isNil : JsonArr → Bool
  | .nil => true
  | .cons _ _ => false

/-- Whether a JSON object has no members. -/
def JsonObj.isNil : JsonObj → Bool
  | .nil => true
  | .cons _ _ _ => false

mutual

/-- `JSON.stringify(v, null, 2)` at nesting prefix `ind`: the pretty
serialization with two-space indentation used by `getContext` and `search`. -/
def jsonStringify (ind : String) : JsonVal → String
  | .null => "null"
  | .bool b => if b then "true" else "false"
  | .num n => toString n
  | .str s => jsonQuote s
  | .arr a =>
    if a.isNil then "[]"
    else "[\n" ++ jsonStringifyItems (ind ++ "  ") a ++ "\n" ++ ind ++ "]"
  | .obj o =>
    if o.isNil then "\x7b\x7d"
    else "\x7b\n" ++ jsonStringifyFields (ind ++ "  ") o ++ "\n" ++ ind ++ "\x7d"

/-- Comma-and-newline separated serialization of array elements. -/
def jsonStringifyItems (ind : String) : JsonArr → String
  | .nil => ""
  | .cons e es =>
    ind ++ jsonStringify ind e ++ (if es.isNil then "" else ",\n") ++
      jsonStringifyItems ind es

/-- Comma-and-newline separated serialization of object members. -/
def jsonStringifyFields (ind : String) : JsonObj → String
  | .nil => ""
  | .cons k v fs =>
    ind ++ jsonQuote k ++ ": " ++ jsonStringify ind v ++
      (if fs.isNil then "" else ",\n") ++ jsonStringifyFields ind fs

end

/-- The outcome of one `fetch` (plus `response.json()` when reached):
either some exception was thrown along the way (network failure, abort,
body that fails to parse), carrying its rendered message, or a response
arrived with the given `response.ok` flag and parsed JSON body. -/
inductive HttpResult where
  | fail (e : String)
  | resp (ok : Bool) (body : JsonVal)

/-- `WorkerClient.getContext` (worker-client.ts): non-OK status, any thrown
error, and empty/placeholder payloads all normalize to `none`; a string body
or a string `content` member is returned directly; any other body is
serialized with `JSON.stringify(data, null, 2)` unless that text is exactly
the placeholder "\x7b\x7d" or "null". -/
def getContext (r : HttpResult) : Option String :=
  match r with
  | .fail _ => none
  | .resp ok body =>
    if !ok then none
    else
      match body with
      | .str s => some s
      | _ =>
        match (if body.truthy then body.contentStr else none) with
        | some c => some c
        | none =>
          let text := jsonStringify "" body
          if text = "\x7b\x7d" || text = "null" then none else some text

/-- `WorkerClient.search` (worker-client.ts): a non-OK status yields the
literal "Search failed", a thrown exception is rendered into an error string
(the template literal interpolating the exception), and a successful parse
is re-serialized with `JSON.stringify(data, null, 2)`.  Total: the source
wraps everything in try/catch, so the function never throws. -/
def searchImpl (r : HttpResult) : String :=
  match r with
  | .fail e => "Error performing search: " ++ e
  | .resp ok body =>
    if !ok then "Search failed"
    else jsonStringify "" body

/-- `WorkerClient.sessionInit` (worker-client.ts): `none` on a non-OK status
or a thrown error, otherwise the parsed body (the TypeScript `as` cast is a
compile-time assertion with no runtime effect). -/
def workerSessionInit (r : HttpResult) : Option JsonVal :=
  match r with
  | .fail _ => none
  | .resp ok body => if ok then some body else none

/-- Fixed per-process configuration of the plugin closure (`index.ts` lines
19-24): the derived project name and the project root directory. -/
structure Cfg where
  projectName : String
  projectRoot : String
deriving Repr, DecidableEq

/-- One text-bearing message part as seen by `extractTextFromParts`:
its `type` tag and its `text` member (`some t` exactly when the part has a
`text` member that is a string). -/
structure MsgPart where
  ptype : String
  text : Option String
deriving Repr, DecidableEq

/-- One entry of `client.session.messages(...).data`: the authoring role
(`info.role`) and the message parts. -/
structure Message where
  role : String
  parts : List MsgPart
deriving Repr, DecidableEq

/-- JavaScript `String.prototype.trim`: strip leading and trailing
whitespace.  Written over the character list so that it reduces inside the
kernel (the library's `String.trim` is well-founded recursion over byte
positions and does not). -/
def strTrim (s : String) : String :=
  String.mk
    (((s.data.dropWhile Char.isWhitespace).reverse.dropWhile
      Char.isWhitespace).reverse)

/-- `extractTextFromParts` (`index.ts` lines 126-135): keep the parts whose
type is "text" and whose text is a string, join with newlines, trim. -/
def extractTextFromParts (parts : List MsgPart) : String :=
  strTrim (String.intercalate "\n"
    ((parts.filter fun p => p.ptype == "text" && p.text.isSome).map
      fun p => p.text.getD ""))

/-- An observable interaction with the worker or the host UI, recorded in
the order the plugin performs it. -/
inductive Effect where
  | healthProbe
  | initToast (healthy : Bool)
  | toastMsg (msg : String)
  | statusMsg (sid msg : String)
  | sessionInitCall (sid proj prompt : String)
  | observationCall (sid tool cwd : String)
  | summarizeCall (sid lastUser lastAssistant : String)
  | completeCall (sid : String)
  | contextFetch (proj : String)
  | searchCall (query proj : String)
deriving Repr, DecidableEq

/-- The plugin closure's mutable state (`index.ts` lines 61, 75-76, 94-95).
`contextCache = none` models the `undefined` (uninitialized) slot;
`contextCache = some v` models a cached fetch result `v` (itself possibly
`null`).  `workerHealthy = none` models the unprobed tri-state. -/
structure PluginState where
  contextCache : Option (Option String)
  workerHealthy : Option Bool
  initToastShown : Bool
  currentSessionId : Option String
  initializedSessions : List String
deriving Repr, DecidableEq

/-- The state the plugin closure starts in. -/
def initialPluginState : PluginState :=
  { contextCache := none
    workerHealthy := none
    initToastShown := false
    currentSessionId := none
    initializedSessions := [] }

/-- The oracle for one hook invocation: the outcome each remote interaction
would have if performed (health probe result, `/api/sessions/init` response,
`/api/context/inject` response, the host's message history or `none` when
fetching it throws or yields a non-array, and the `/api/search` response). -/
structure Env where
  healthResult : Bool
  initResp : HttpResult
  ctxResp : HttpResult
  messages : Option (List Message)
  searchResp : HttpResult

/-- Result of running one plugin function: its return value, the updated
closure state, and the effects performed, in order. -/
structure HookOut (α : Type) where
  ret : α
  state : PluginState
  effects : List Effect
deriving Repr, DecidableEq

/-- JavaScript `a || b` on nullable strings: the empty string is falsy. -/
def jsOrStr (a b : Option String) : Option String :=
  match a with
  | some s => if s = "" then b else some s
  | none => b

/-- JavaScript truthiness of a nullable string (`if (x)`): `some sid` when
truthy, `none` when absent or empty. -/
def truthySid : Option String → Option String
  | some s => if s = "" then none else some s
  | none => none

/-- `prompt || 'SESSION_START'` (`index.ts` line 113): an absent or empty
prompt falls back to the sentinel. -/
def promptOrDefault : Option String → String
  | some s => if s = "" then "SESSION_START" else s
  | none => "SESSION_START"

/-- `Set.add` on the initialized-session set, modelled as a duplicate-free
insertion into a list. -/
def jsInsert (sid : String) (l : List String) : List String :=
  if sid ∈ l then l else l ++ [sid]

/-- `checkWorkerAndToast` (`index.ts` lines 79-92): probe the worker only
when `workerHealthy` is still unset, memoize the result, and show the
one-shot startup toast the first time through. -/
def checkWorkerAndToast (env : Env) (s : PluginState) : HookOut Bool :=
  let probed : Bool × PluginState × List Effect :=
    match s.workerHealthy with
    | some b => (b, s, [])
    | none =>
      (env.healthResult, { s with workerHealthy := some env.healthResult },
        [Effect.healthProbe])
  let healthy := probed.1
  let s1 := probed.2.1
  let eff1 := probed.2.2
  if s1.initToastShown then ⟨healthy, s1, eff1⟩
  else ⟨healthy, { s1 with initToastShown := true },
    eff1 ++ [Effect.initToast healthy]⟩

/-- `ensureSessionInit` (`index.ts` lines 102-120): short-circuit when the
session is already recorded; bail out when the memoized health check says
unhealthy; otherwise perform the remote init call.  `WorkerClient.sessionInit`
maps every failure to `null` and never throws, and its return value is
discarded here exactly as in the source, so the source's `catch` branch is
unreachable and the session is recorded whether or not the remote init
succeeded. -/
def ensureSessionInit (cfg : Cfg) (env : Env) (s : PluginState)
    (sessionId : String) (prompt : Option String) : HookOut Bool :=
  if sessionId ∈ s.initializedSessions then ⟨true, s, []⟩
  else
    let c := checkWorkerAndToast env s
    if c.ret = false then ⟨false, c.state, c.effects⟩
    else
      let _initOutcome := workerSessionInit env.initResp
      ⟨true,
        { c.state with
          initializedSessions := jsInsert sessionId c.state.initializedSessions
          currentSessionId := some sessionId },
        c.effects ++
          [Effect.sessionInitCall sessionId cfg.projectName
            (promptOrDefault prompt)]⟩

/-- `getCachedContext` (`index.ts` lines 64-71): return the cached value if
the slot is set (even when the cached value is `null`); otherwise fetch once
and fill the slot. -/
def getCachedContext (cfg : Cfg) (env : Env) (s : PluginState) :
    HookOut (Option String) :=
  match s.contextCache with
  | some v => ⟨v, s, []⟩
  | none =>
    let ctx := getContext env.ctxResp
    ⟨ctx, { s with contextCache := some ctx },
      [Effect.contextFetch cfg.projectName]⟩

/-- The backward scan of `session.idle` (`index.ts` lines 219-232): the text
of the most recent message of the given role, or "" when there is none. -/
def lastMessageText (role : String) (ms : List Message) : String :=
  match ms.reverse.find? (fun m => m.role == role) with
  | some m => extractTextFromParts m.parts
  | none => ""

/-- The `session.created` branch of the event hook (`index.ts` lines
185-197): when the event carries an id, record it as current, reset the
context-cache slot to uninitialized, and run the lazy health check.  It
does not touch `initializedSessions` (init is left to `chat.message`). -/
def eventSessionCreated (env : Env) (s : PluginState) (sid : Option String) :
    HookOut Unit :=
  match truthySid sid with
  | none => ⟨(), s, []⟩
  | some i =>
    let s1 := { s with currentSessionId := some i, contextCache := none }
    let c := checkWorkerAndToast env s1
    ⟨(), c.state, c.effects⟩

/-- The `session.idle` branch of the event hook (`index.ts` lines 199-244):
resolve the session id (falling back to the tracked current id), look up the
last user and assistant message texts (empty when the history fetch fails),
then summarize, complete the session, and toast.  `summarize` and
`completeSession` swallow their own failures, so the sequence always runs to
completion. -/
def eventSessionIdle (env : Env) (s : PluginState) (eventSid : Option String) :
    HookOut Unit :=
  match truthySid (jsOrStr eventSid s.currentSessionId) with
  | none => ⟨(), s, []⟩
  | some sid =>
    let lastUser :=
      match env.messages with
      | some ms => lastMessageText "user" ms
      | none => ""
    let lastAssistant :=
      match env.messages with
      | some ms => lastMessageText "assistant" ms
      | none => ""
    ⟨(), s,
      [Effect.summarizeCall sid lastUser lastAssistant,
        Effect.completeCall sid,
        Effect.toastMsg "Session summarized"]⟩

/-- The `chat.message` hook (`index.ts` lines 251-257): when the input
carries a session id, extract the user prompt text and ensure session init
with it (`userPrompt || undefined`). -/
def chatMessageHook (cfg : Cfg) (env : Env) (s : PluginState)
    (sessionID : Option String) (parts : List MsgPart) : HookOut Unit :=
  match sessionID with
  | none => ⟨(), s, []⟩
  | some sid =>
    if sid = "" then ⟨(), s, []⟩
    else
      let userPrompt := extractTextFromParts parts
      let e := ensureSessionInit cfg env s sid
        (if userPrompt = "" then none else some userPrompt)
      ⟨(), e.state, e.effects⟩

/-- The `experimental.chat.system.transform` hook (`index.ts` lines
263-284): opportunistically ensure session init, stop if the memoized health
check is unhealthy, otherwise fetch (or reuse) the cached context and append
the tagged memory block to the system prompt when the context is non-null.
Returns the resulting system-prompt list. -/
def systemTransform (cfg : Cfg) (env : Env) (s : PluginState)
    (sessionID : Option String) (system : List String) :
    HookOut (List String) :=
  let e : HookOut Bool :=
    match truthySid sessionID with
    | some sid => ensureSessionInit cfg env s sid none
    | none => ⟨false, s, []⟩
  let c := checkWorkerAndToast env e.state
  if c.ret = false then ⟨system, c.state, e.effects ++ c.effects⟩
  else
    let g := getCachedContext cfg env c.state
    match g.ret with
    | some ctx =>
      ⟨system ++ ["[Claude-Mem] Memory Active. Previous Context:\n" ++ ctx],
        g.state, e.effects ++ c.effects ++ g.effects⟩
    | none => ⟨system, g.state, e.effects ++ c.effects ++ g.effects⟩

/-- The `tool.execute.after` hook (`index.ts` lines 290-310): resolve the
session id, ensure session init (its boolean result is not consulted, as in
the source), then send the observation; `sendObservation` swallows its own
failures, so the observation call is always attempted. -/
def toolExecuteAfter (cfg : Cfg) (env : Env) (s : PluginState)
    (sessionID : Option String) (toolName : String) : HookOut Unit :=
  match truthySid (jsOrStr sessionID s.currentSessionId) with
  | none => ⟨(), s, []⟩
  | some sid =>
    let e := ensureSessionInit cfg env s sid none
    ⟨(), e.state,
      e.effects ++ [Effect.observationCall sid toolName cfg.projectRoot]⟩

/-- How the `command.execute.before` hook terminates: pass-through for other
commands, the `__MEMORY_NO_SESSION__` sentinel, or the `__MEMORY_HANDLED__`
sentinel. -/
inductive CmdOutcome where
  | notHandled
  | noSessionError
  | handled
deriving Repr, DecidableEq

/-- The `command.execute.before` hook (`index.ts` lines 154-178): only the
`memory` command is handled; without a session id it signals the no-session
sentinel; when unhealthy it emits a visible offline notice; otherwise it
emits the context (or a placeholder when the context is null or empty,
`if (context)` being a truthiness test); every handled path ends in the
handled sentinel. -/
def commandExecuteBefore (cfg : Cfg) (env : Env) (s : PluginState)
    (command : String) (sessionID : Option String) : HookOut CmdOutcome :=
  if command ≠ "memory" then ⟨.notHandled, s, []⟩
  else
    match truthySid (jsOrStr sessionID s.currentSessionId) with
    | none => ⟨.noSessionError, s, []⟩
    | some sid =>
      let c := checkWorkerAndToast env s
      if c.ret = false then
        ⟨.handled, c.state,
          c.effects ++ [Effect.statusMsg sid "⚠ Claude-Mem worker is offline"]⟩
      else
        let g := getCachedContext cfg env c.state
        match truthySid g.ret with
        | some ctx =>
          ⟨.handled, g.state, c.effects ++ g.effects ++ [Effect.statusMsg sid ctx]⟩
        | none =>
          ⟨.handled, g.state,
            c.effects ++ g.effects ++
              [Effect.statusMsg sid
                ("No memory context available for " ++ cfg.projectName)]⟩

/-- The `mem-search` custom tool (`index.ts` lines 316-324): a stateless
relay to `WorkerClient.search`. -/
def memSearchTool (cfg : Cfg) (env : Env) (s : PluginState) (query : String) :
    HookOut String :=
  ⟨searchImpl env.searchResp, s, [Effect.searchCall query cfg.projectName]⟩

/-- One invocation of any of the plugin's hooks, with the host-supplied
arguments each receives. -/
inductive HookCall where
  | sessionCreated (sid : Option String)
  | sessionIdle (sid : Option String)
  | chatMsg (sid : Option String) (parts : List MsgPart)
  | systemXform (sid : Option String) (system : List String)
  | toolAfter (sid : Option String) (toolName : String)
  | commandBefore (command : String) (sid : Option String)
  | memSearch (query : String)
deriving Repr, DecidableEq

/-- Dispatch one hook invocation, keeping the state change and effect trace
and dropping the hook's host-facing return value. -/
def stepHook (cfg : Cfg) (env : Env) (s : PluginState) :
    HookCall → PluginState × List Effect
  | .sessionCreated sid =>
    let h := eventSessionCreated env s sid
    (h.state, h.effects)
  | .sessionIdle sid =>
    let h := eventSessionIdle env s sid
    (h.state, h.effects)
  | .chatMsg sid parts =>
    let h := chatMessageHook cfg env s sid parts
    (h.state, h.effects)
  | .systemXform sid system =>
    let h := systemTransform cfg env s sid system
    (h.state, h.effects)
  | .toolAfter sid toolName =>
    let h := toolExecuteAfter cfg env s sid toolName
    (h.state, h.effects)
  | .commandBefore command sid =>
    let h := commandExecuteBefore cfg env s command sid
    (h.state, h.effects)
  | .memSearch query =>
    let h := memSearchTool cfg env s query
    (h.state, h.effects)

/-- Run a sequence of hook invocations, each under its own oracle,
concatenating the effect traces. -/
def runHooks (cfg : Cfg) (s : PluginState) :
    List (HookCall × Env) → PluginState × List Effect
  | [] => (s, [])
  | (hk, env) :: rest =>
    let step := stepHook cfg env s hk
    let tail := runHooks cfg step.1 rest
    (tail.1, step.2 ++ tail.2)

/-- Whether an effect is the remote health probe. -/
def Effect.isProbe : Effect → Bool
  | .healthProbe => true
  | _ => false

/-- Whether an effect is the one-shot startup toast. -/
def Effect.isStartupToast : Effect → Bool
  | .initToast _ => true
  | _ => false

/-- Whether an effect is a remote `/api/sessions/init` call. -/
def Effect.isSessionInitCall : Effect → Bool
  | .sessionInitCall _ _ _ => true
  | _ => false

/-- Whether an effect is a remote `/api/context/inject` fetch. -/
def Effect.isContextFetch : Effect → Bool
  | .contextFetch _ => true
  | _ => false

/-- Whether an effect is a remote `/api/sessions/observations` call. -/
def Effect.isObservation : Effect → Bool
  | .observationCall _ _ _ => true
  | _ => false

/-- Whether an effect is a remote `/api/sessions/complete` call. -/
def Effect.isComplete : Effect → Bool
  | .completeCall _ => true
  | _ => false

/-- How many health probes may still happen: one while `workerHealthy` is
unset, none once it is memoized. -/
def probeBudget (s : PluginState) : Nat :=
  match s.workerHealthy with
  | none => 1
  | some _ => 0

/-- How many startup toasts may still happen. -/
def toastBudget (s : PluginState) : Nat :=
  if s.initToastShown then 0 else 1

/-- How many remote init calls may still happen for `sid`. -/
def initBudget (sid : String) (s : PluginState) : Nat :=
  if sid ∈ s.initializedSessions then 0 else 1

/-- How many context fetches may still happen before the next cache
invalidation. -/
def fetchBudget (s : PluginState) : Nat :=
  match s.contextCache with
  | none => 1
  | some _ => 0

theorem cw_workerHealthy (env : Env) (s : PluginState) :
    (checkWorkerAndToast env s).state.workerHealthy =
      some (checkWorkerAndToast env s).ret := by
  unfold checkWorkerAndToast
  cases h : s.workerHealthy <;> cases h2 : s.initToastShown <;> simp [h, h2]

theorem cw_ret_of_memo (env : Env) (s : PluginState) (b : Bool)
    (h : s.workerHealthy = some b) : (checkWorkerAndToast env s).ret = b := by
  unfold checkWorkerAndToast
  cases h2 : s.initToastShown <;> simp [h, h2]

theorem cw_flag_of_memo (env : Env) (s : PluginState) (b : Bool)
    (h : s.workerHealthy = some b) :
    (checkWorkerAndToast env s).state.workerHealthy = some b := by
  unfold checkWorkerAndToast
  cases h2 : s.initToastShown <;> simp [h, h2]

theorem cw_contextCache (env : Env) (s : PluginState) :
    (checkWorkerAndToast env s).state.contextCache = s.contextCache := by
  unfold checkWorkerAndToast
  cases h : s.workerHealthy <;> cases h2 : s.initToastShown <;> simp [h, h2]

theorem cw_sessions (env : Env) (s : PluginState) :
    (checkWorkerAndToast env s).state.initializedSessions =
      s.initializedSessions := by
  unfold checkWorkerAndToast
  cases h : s.workerHealthy <;> cases h2 : s.initToastShown <;> simp [h, h2]

theorem cw_current (env : Env) (s : PluginState) :
    (checkWorkerAndToast env s).state.currentSessionId =
      s.currentSessionId := by
  unfold checkWorkerAndToast
  cases h : s.workerHealthy <;> cases h2 : s.initToastShown <;> simp [h, h2]

theorem cw_probe_count (env : Env) (s : PluginState) :
    (checkWorkerAndToast env s).effects.countP Effect.isProbe =
      probeBudget s := by
  unfold checkWorkerAndToast probeBudget
  cases h : s.workerHealthy <;> cases h2 : s.initToastShown <;>
    simp [h, h2, Effect.isProbe, Effect.isStartupToast, List.countP_cons]

theorem cw_probe_budget (env : Env) (s : PluginState) :
    (checkWorkerAndToast env s).effects.countP Effect.isProbe +
      probeBudget (checkWorkerAndToast env s).state ≤ probeBudget s := by
  have h1 := cw_probe_count env s
  have h2 := cw_workerHealthy env s
  simp [probeBudget, h1, h2]

theorem cw_toast_count (env : Env) (s : PluginState) :
    (checkWorkerAndToast env s).effects.countP Effect.isStartupToast =
      toastBudget s := by
  unfold checkWorkerAndToast toastBudget
  cases h : s.workerHealthy <;> cases h2 : s.initToastShown <;>
    simp [h, h2, Effect.isProbe, Effect.isStartupToast, List.countP_cons]

theorem cw_toastShown (env : Env) (s : PluginState) :
    (checkWorkerAndToast env s).state.initToastShown = true := by
  unfold checkWorkerAndToast
  cases h : s.workerHealthy <;> cases h2 : s.initToastShown <;> simp [h, h2]

theorem cw_toast_budget (env : Env) (s : PluginState) :
    (checkWorkerAndToast env s).effects.countP Effect.isStartupToast +
      toastBudget (checkWorkerAndToast env s).state ≤ toastBudget s := by
  have h1 := cw_toast_count env s
  have h2 := cw_toastShown env s
  simp [toastBudget, h1, h2]

theorem cw_no_init_call (env : Env) (s : PluginState) :
    (checkWorkerAndToast env s).effects.countP Effect.isSessionInitCall = 0 := by
  unfold checkWorkerAndToast
  cases h : s.workerHealthy <;> cases h2 : s.initToastShown <;>
    simp [h, h2, Effect.isSessionInitCall, List.countP_cons]

theorem cw_no_fetch (env : Env) (s : PluginState) :
    (checkWorkerAndToast env s).effects.countP Effect.isContextFetch = 0 := by
  unfold checkWorkerAndToast
  cases h : s.workerHealthy <;> cases h2 : s.initToastShown <;>
    simp [h, h2, Effect.isContextFetch, List.countP_cons]

theorem cw_no_observation (env : Env) (s : PluginState) :
    (checkWorkerAndToast env s).effects.countP Effect.isObservation = 0 := by
  unfold checkWorkerAndToast
  cases h : s.workerHealthy <;> cases h2 : s.initToastShown <;>
    simp [h, h2, Effect.isObservation, List.countP_cons]

theorem mem_jsInsert (sid : String) (l : List String) : sid ∈ jsInsert sid l := by
  unfold jsInsert
  split <;> simp [*]

theorem esi_of_mem (cfg : Cfg) (env : Env) (s : PluginState) (sid : String)
    (p : Option String) (h : sid ∈ s.initializedSessions) :
    ensureSessionInit cfg env s sid p = ⟨true, s, []⟩ := by
  unfold ensureSessionInit
  simp [h]

theorem esi_not_mem_unhealthy (cfg : Cfg) (env : Env) (s : PluginState)
    (sid : String) (p : Option String) (hm : sid ∉ s.initializedSessions)
    (hc : (checkWorkerAndToast env s).ret = false) :
    ensureSessionInit cfg env s sid p =
      ⟨false, (checkWorkerAndToast env s).state,
        (checkWorkerAndToast env s).effects⟩ := by
  unfold ensureSessionInit
  simp [hm, hc]

theorem esi_not_mem_healthy (cfg : Cfg) (env : Env) (s : PluginState)
    (sid : String) (p : Option String) (hm : sid ∉ s.initializedSessions)
    (hc : (checkWorkerAndToast env s).ret = true) :
    ensureSessionInit cfg env s sid p =
      ⟨true,
        { (checkWorkerAndToast env s).state with
          initializedSessions :=
            jsInsert sid (checkWorkerAndToast env s).state.initializedSessions
          currentSessionId := some sid },
        (checkWorkerAndToast env s).effects ++
          [Effect.sessionInitCall sid cfg.projectName (promptOrDefault p)]⟩ := by
  unfold ensureSessionInit
  simp [hm, hc]

theorem esi_probe_budget (cfg : Cfg) (env : Env) (s : PluginState)
    (sid : String) (p : Option String) :
    (ensureSessionInit cfg env s sid p).effects.countP Effect.isProbe +
      probeBudget (ensureSessionInit cfg env s sid p).state ≤ probeBudget s := by
  by_cases hm : sid ∈ s.initializedSessions
  · rw [esi_of_mem cfg env s sid p hm]
    simp
  · by_cases hc : (checkWorkerAndToast env s).ret = false
    · rw [esi_not_mem_unhealthy cfg env s sid p hm hc]
      exact cw_probe_budget env s
    · rw [esi_not_mem_healthy cfg env s sid p hm (by simpa using hc)]
      simp [List.countP_append, List.countP_cons, Effect.isProbe,
        probeBudget, cw_workerHealthy, cw_probe_count]

theorem esi_toast_budget (cfg : Cfg) (env : Env) (s : PluginState)
    (sid : String) (p : Option String) :
    (ensureSessionInit cfg env s sid p).effects.countP Effect.isStartupToast +
      toastBudget (ensureSessionInit cfg env s sid p).state ≤ toastBudget s := by
  by_cases hm : sid ∈ s.initializedSessions
  · rw [esi_of_mem cfg env s sid p hm]
    simp
  · by_cases hc : (checkWorkerAndToast env s).ret = false
    · rw [esi_not_mem_unhealthy cfg env s sid p hm hc]
      exact cw_toast_budget env s
    · rw [esi_not_mem_healthy cfg env s sid p hm (by simpa using hc)]
      simp [List.countP_append, List.countP_cons, Effect.isStartupToast,
        toastBudget, cw_toastShown, cw_toast_count]

theorem esi_workerHealthy_of_memo (cfg : Cfg) (env : Env) (s : PluginState)
    (sid : String) (p : Option String) (b : Bool)
    (h : s.workerHealthy = some b) :
    (ensureSessionInit cfg env s sid p).state.workerHealthy = some b := by
  unfold ensureSessionInit
  by_cases hm : sid ∈ s.initializedSessions
  · simp [hm, h]
  · by_cases hc : (checkWorkerAndToast env s).ret = false <;>
      simp [hm, hc, cw_flag_of_memo env s b h]

theorem esi_probe_count_of_memo (cfg : Cfg) (env : Env) (s : PluginState)
    (sid : String) (p : Option String) (b : Bool)
    (h : s.workerHealthy = some b) :
    (ensureSessionInit cfg env s sid p).effects.countP Effect.isProbe = 0 := by
  have hc : (checkWorkerAndToast env s).effects.countP Effect.isProbe = 0 := by
    rw [cw_probe_count env s]
    unfold probeBudget
    rw [h]
  by_cases hm : sid ∈ s.initializedSessions
  · rw [esi_of_mem cfg env s sid p hm]
    rfl
  · by_cases hr : (checkWorkerAndToast env s).ret = false
    · rw [esi_not_mem_unhealthy cfg env s sid p hm hr]
      exact hc
    · rw [esi_not_mem_healthy cfg env s sid p hm (by simpa using hr)]
      simp only [List.countP_append, hc, List.countP_cons]
      simp [Effect.isProbe]

theorem esi_contextCache (cfg : Cfg) (env : Env) (s : PluginState)
    (sid : String) (p : Option String) :
    (ensureSessionInit cfg env s sid p).state.contextCache =
      s.contextCache := by
  unfold ensureSessionInit
  by_cases hm : sid ∈ s.initializedSessions
  · simp [hm]
  · by_cases hc : (checkWorkerAndToast env s).ret = false <;>
      simp [hm, hc, cw_contextCache]

theorem esi_init_budget (cfg : Cfg) (env : Env) (s : PluginState)
    (sid : String) (p : Option String) :
    (ensureSessionInit cfg env s sid p).effects.countP Effect.isSessionInitCall +
      initBudget sid (ensureSessionInit cfg env s sid p).state ≤
        initBudget sid s := by
  unfold ensureSessionInit
  by_cases hm : sid ∈ s.initializedSessions
  · simp [hm, initBudget]
  · by_cases hc : (checkWorkerAndToast env s).ret = false
    · simp [hm, hc, cw_no_init_call, initBudget, cw_sessions]
    · simp [hm, hc, List.countP_append, cw_no_init_call, initBudget,
        List.countP_cons, Effect.isSessionInitCall, mem_jsInsert]

theorem esi_unhealthy (cfg : Cfg) (env : Env) (s : PluginState) (sid : String)
    (p : Option String) (h : s.workerHealthy = some false)
    (hm : sid ∉ s.initializedSessions) :
    (ensureSessionInit cfg env s sid p).ret = false ∧
      (ensureSessionInit cfg env s sid p).effects.countP
        Effect.isSessionInitCall = 0 := by
  have hr := cw_ret_of_memo env s false h
  unfold ensureSessionInit
  simp [hm, hr, cw_no_init_call]

theorem esi_no_fetch (cfg : Cfg) (env : Env) (s : PluginState) (sid : String)
    (p : Option String) :
    (ensureSessionInit cfg env s sid p).effects.countP Effect.isContextFetch =
      0 := by
  unfold ensureSessionInit
  by_cases hm : sid ∈ s.initializedSessions
  · simp [hm]
  · by_cases hc : (checkWorkerAndToast env s).ret = false <;>
      simp [hm, hc, cw_no_fetch, List.countP_append, List.countP_cons,
        Effect.isContextFetch]

theorem esi_no_observation (cfg : Cfg) (env : Env) (s : PluginState)
    (sid : String) (p : Option String) :
    (ensureSessionInit cfg env s sid p).effects.countP Effect.isObservation =
      0 := by
  unfold ensureSessionInit
  by_cases hm : sid ∈ s.initializedSessions
  · simp [hm]
  · by_cases hc : (checkWorkerAndToast env s).ret = false <;>
      simp [hm, hc, cw_no_observation, List.countP_append, List.countP_cons,
        Effect.isObservation]

theorem gcc_of_cached (cfg : Cfg) (env : Env) (s : PluginState)
    (v : Option String) (h : s.contextCache = some v) :
    getCachedContext cfg env s = ⟨v, s, []⟩ := by
  unfold getCachedContext
  simp [h]

theorem gcc_fetch_budget (cfg : Cfg) (env : Env) (s : PluginState) :
    (getCachedContext cfg env s).effects.countP Effect.isContextFetch +
      fetchBudget (getCachedContext cfg env s).state ≤ fetchBudget s := by
  unfold getCachedContext fetchBudget
  cases h : s.contextCache <;>
    simp [h, List.countP_cons, Effect.isContextFetch]

theorem gcc_workerHealthy (cfg : Cfg) (env : Env) (s : PluginState) :
    (getCachedContext cfg env s).state.workerHealthy = s.workerHealthy := by
  unfold getCachedContext
  cases h : s.contextCache <;> simp [h]

theorem gcc_toastShown (cfg : Cfg) (env : Env) (s : PluginState) :
    (getCachedContext cfg env s).state.initToastShown = s.initToastShown := by
  unfold getCachedContext
  cases h : s.contextCache <;> simp [h]

theorem gcc_sessions (cfg : Cfg) (env : Env) (s : PluginState) :
    (getCachedContext cfg env s).state.initializedSessions =
      s.initializedSessions := by
  unfold getCachedContext
  cases h : s.contextCache <;> simp [h]

theorem gcc_no_probe (cfg : Cfg) (env : Env) (s : PluginState) :
    (getCachedContext cfg env s).effects.countP Effect.isProbe = 0 := by
  unfold getCachedContext
  cases h : s.contextCache <;>
    simp [h, List.countP_cons, Effect.isProbe]

theorem gcc_no_toast (cfg : Cfg) (env : Env) (s : PluginState) :
    (getCachedContext cfg env s).effects.countP Effect.isStartupToast = 0 := by
  unfold getCachedContext
  cases h : s.contextCache <;>
    simp [h, List.countP_cons, Effect.isStartupToast]

theorem gcc_no_init_call (cfg : Cfg) (env : Env) (s : PluginState) :
    (getCachedContext cfg env s).effects.countP Effect.isSessionInitCall =
      0 := by
  unfold getCachedContext
  cases h : s.contextCache <;>
    simp [h, List.countP_cons, Effect.isSessionInitCall]

theorem gcc_fills (cfg : Cfg) (env : Env) (s : PluginState) :
    (getCachedContext cfg env s).state.contextCache =
      some (getCachedContext cfg env s).ret := by
  unfold getCachedContext
  cases h : s.contextCache <;> simp [h]

theorem probeBudget_congr (s1 s2 : PluginState)
    (h : s1.workerHealthy = s2.workerHealthy) :
    probeBudget s1 = probeBudget s2 := by
  unfold probeBudget
  rw [h]

theorem toastBudget_congr (s1 s2 : PluginState)
    (h : s1.initToastShown = s2.initToastShown) :
    toastBudget s1 = toastBudget s2 := by
  unfold toastBudget
  rw [h]

theorem created_probe_budget (env : Env) (s : PluginState) (sid : Option String) :
    (eventSessionCreated env s sid).effects.countP Effect.isProbe +
      probeBudget (eventSessionCreated env s sid).state ≤ probeBudget s := by
  cases ht : truthySid sid
  · simp [eventSessionCreated, ht]
  · simp only [eventSessionCreated, ht]
    exact cw_probe_budget env _

theorem idle_probe_budget (env : Env) (s : PluginState) (sid : Option String) :
    (eventSessionIdle env s sid).effects.countP Effect.isProbe +
      probeBudget (eventSessionIdle env s sid).state ≤ probeBudget s := by
  cases ht : truthySid (jsOrStr sid s.currentSessionId) <;>
    simp [eventSessionIdle, ht, List.countP_cons, Effect.isProbe]

theorem chat_probe_budget (cfg : Cfg) (env : Env) (s : PluginState)
    (sid : Option String) (parts : List MsgPart) :
    (chatMessageHook cfg env s sid parts).effects.countP Effect.isProbe +
      probeBudget (chatMessageHook cfg env s sid parts).state ≤
        probeBudget s := by
  cases sid with
  | none => simp [chatMessageHook]
  | some i =>
    by_cases hi : i = ""
    · simp [chatMessageHook, hi]
    · simp only [chatMessageHook, hi, if_false]
      exact esi_probe_budget cfg env s i _

theorem xform_probe_budget (cfg : Cfg) (env : Env) (s : PluginState)
    (sid : Option String) (system : List String) :
    (systemTransform cfg env s sid system).effects.countP Effect.isProbe +
      probeBudget (systemTransform cfg env s sid system).state ≤
        probeBudget s := by
  unfold systemTransform
  cases ht : truthySid sid <;> simp only [ht]
  case none =>
    by_cases hc : (checkWorkerAndToast env s).ret = false
    · simpa [hc] using cw_probe_budget env s
    · have h1 := cw_probe_budget env s
      have h2 := gcc_no_probe cfg env (checkWorkerAndToast env s).state
      have h3 := probeBudget_congr
        (getCachedContext cfg env (checkWorkerAndToast env s).state).state
        (checkWorkerAndToast env s).state
        (gcc_workerHealthy cfg env (checkWorkerAndToast env s).state)
      cases hg : (getCachedContext cfg env (checkWorkerAndToast env s).state).ret <;>
        simp [hc, hg, List.countP_append, h2, h3] <;> omega
  case some i =>
    have h0 := esi_probe_budget cfg env s i none
    have h1 := cw_probe_budget env (ensureSessionInit cfg env s i none).state
    by_cases hc :
        (checkWorkerAndToast env (ensureSessionInit cfg env s i none).state).ret =
          false
    · simp [hc, List.countP_append]
      omega
    · have h2 := gcc_no_probe cfg env
        (checkWorkerAndToast env (ensureSessionInit cfg env s i none).state).state
      have h3 := probeBudget_congr
        (getCachedContext cfg env
          (checkWorkerAndToast env (ensureSessionInit cfg env s i none).state).state).state
        (checkWorkerAndToast env (ensureSessionInit cfg env s i none).state).state
        (gcc_workerHealthy cfg env _)
      cases hg : (getCachedContext cfg env
          (checkWorkerAndToast env (ensureSessionInit cfg env s i none).state).state).ret <;>
        simp [hc, hg, List.countP_append, h2, h3] <;> omega

theorem toolAfter_probe_budget (cfg : Cfg) (env : Env) (s : PluginState)
    (sid : Option String) (toolName : String) :
    (toolExecuteAfter cfg env s sid toolName).effects.countP Effect.isProbe +
      probeBudget (toolExecuteAfter cfg env s sid toolName).state ≤
        probeBudget s := by
  unfold toolExecuteAfter
  cases ht : truthySid (jsOrStr sid s.currentSessionId) <;> simp only [ht]
  case none => simp
  case some i =>
    have h0 := esi_probe_budget cfg env s i none
    simp [List.countP_append, List.countP_cons, Effect.isProbe]
    omega

theorem command_probe_budget (cfg : Cfg) (env : Env) (s : PluginState)
    (command : String) (sid : Option String) :
    (commandExecuteBefore cfg env s command sid).effects.countP Effect.isProbe +
      probeBudget (commandExecuteBefore cfg env s command sid).state ≤
        probeBudget s := by
  unfold commandExecuteBefore
  by_cases hcmd : command ≠ "memory"
  · simp [hcmd]
  · simp only [hcmd, if_false]
    cases ht : truthySid (jsOrStr sid s.currentSessionId) <;> simp only [ht]
    · simp
    · by_cases hc : (checkWorkerAndToast env s).ret = false
      · have h1 := cw_probe_budget env s
        simp [hc, List.countP_append, List.countP_cons, Effect.isProbe]
        omega
      · have h1 := cw_probe_budget env s
        have h2 := gcc_no_probe cfg env (checkWorkerAndToast env s).state
        have h3 := probeBudget_congr
          (getCachedContext cfg env (checkWorkerAndToast env s).state).state
          (checkWorkerAndToast env s).state
          (gcc_workerHealthy cfg env (checkWorkerAndToast env s).state)
        cases hg : truthySid
            (getCachedContext cfg env (checkWorkerAndToast env s).state).ret <;>
          simp [hc, hg, List.countP_append, List.countP_cons, Effect.isProbe,
            h2, h3] <;> omega

theorem memSearch_probe_budget (cfg : Cfg) (env : Env) (s : PluginState)
    (query : String) :
    (memSearchTool cfg env s query).effects.countP Effect.isProbe +
      probeBudget (memSearchTool cfg env s query).state ≤ probeBudget s := by
  simp [memSearchTool, List.countP_cons, Effect.isProbe]

theorem step_probe_budget (cfg : Cfg) (env : Env) (s : PluginState)
    (hk : HookCall) :
    (stepHook cfg env s hk).2.countP Effect.isProbe +
      probeBudget (stepHook cfg env s hk).1 ≤ probeBudget s := by
  cases hk <;>
    simp only [stepHook] <;>
    first
      | exact created_probe_budget env s _
      | exact idle_probe_budget env s _
      | exact chat_probe_budget cfg env s _ _
      | exact xform_probe_budget cfg env s _ _
      | exact toolAfter_probe_budget cfg env s _ _
      | exact command_probe_budget cfg env s _ _
      | exact memSearch_probe_budget cfg env s _

theorem run_probe_budget (cfg : Cfg) (s : PluginState)
    (l : List (HookCall × Env)) :
    (runHooks cfg s l).2.countP Effect.isProbe +
      probeBudget (runHooks cfg s l).1 ≤ probeBudget s := by
  induction l generalizing s with
  | nil => simp [runHooks]
  | cons he rest ih =>
    have h1 := step_probe_budget cfg he.2 s he.1
    have h2 := ih (stepHook cfg he.2 s he.1).1
    simp only [runHooks, List.countP_append]
    omega

theorem created_toast_budget (env : Env) (s : PluginState) (sid : Option String) :
    (eventSessionCreated env s sid).effects.countP Effect.isStartupToast +
      toastBudget (eventSessionCreated env s sid).state ≤ toastBudget s := by
  cases ht : truthySid sid
  · simp [eventSessionCreated, ht]
  · simp only [eventSessionCreated, ht]
    exact cw_toast_budget env _

theorem idle_toast_budget (env : Env) (s : PluginState) (sid : Option String) :
    (eventSessionIdle env s sid).effects.countP Effect.isStartupToast +
      toastBudget (eventSessionIdle env s sid).state ≤ toastBudget s := by
  cases ht : truthySid (jsOrStr sid s.currentSessionId) <;>
    simp [eventSessionIdle, ht, List.countP_cons, Effect.isStartupToast]

theorem chat_toast_budget (cfg : Cfg) (env : Env) (s : PluginState)
    (sid : Option String) (parts : List MsgPart) :
    (chatMessageHook cfg env s sid parts).effects.countP Effect.isStartupToast +
      toastBudget (chatMessageHook cfg env s sid parts).state ≤
        toastBudget s := by
  cases sid with
  | none => simp [chatMessageHook]
  | some i =>
    by_cases hi : i = ""
    · simp [chatMessageHook, hi]
    · simp only [chatMessageHook, hi, if_false]
      exact esi_toast_budget cfg env s i _

theorem xform_toast_budget (cfg : Cfg) (env : Env) (s : PluginState)
    (sid : Option String) (system : List String) :
    (systemTransform cfg env s sid system).effects.countP Effect.isStartupToast +
      toastBudget (systemTransform cfg env s sid system).state ≤
        toastBudget s := by
  unfold systemTransform
  cases ht : truthySid sid <;> simp only [ht]
  case none =>
    by_cases hc : (checkWorkerAndToast env s).ret = false
    · simpa [hc] using cw_toast_budget env s
    · have h1 := cw_toast_budget env s
      have h2 := gcc_no_toast cfg env (checkWorkerAndToast env s).state
      have h3 := toastBudget_congr
        (getCachedContext cfg env (checkWorkerAndToast env s).state).state
        (checkWorkerAndToast env s).state
        (gcc_toastShown cfg env (checkWorkerAndToast env s).state)
      cases hg : (getCachedContext cfg env (checkWorkerAndToast env s).state).ret <;>
        simp [hc, hg, List.countP_append, h2, h3] <;> omega
  case some i =>
    have h0 := esi_toast_budget cfg env s i none
    have h1 := cw_toast_budget env (ensureSessionInit cfg env s i none).state
    by_cases hc :
        (checkWorkerAndToast env (ensureSessionInit cfg env s i none).state).ret =
          false
    · simp [hc, List.countP_append]
      omega
    · have h2 := gcc_no_toast cfg env
        (checkWorkerAndToast env (ensureSessionInit cfg env s i none).state).state
      have h3 := toastBudget_congr
        (getCachedContext cfg env
          (checkWorkerAndToast env (ensureSessionInit cfg env s i none).state).state).state
        (checkWorkerAndToast env (ensureSessionInit cfg env s i none).state).state
        (gcc_toastShown cfg env _)
      cases hg : (getCachedContext cfg env
          (checkWorkerAndToast env (ensureSessionInit cfg env s i none).state).state).ret <;>
        simp [hc, hg, List.countP_append, h2, h3] <;> omega

theorem toolAfter_toast_budget (cfg : Cfg) (env : Env) (s : PluginState)
    (sid : Option String) (toolName : String) :
    (toolExecuteAfter cfg env s sid toolName).effects.countP
        Effect.isStartupToast +
      toastBudget (toolExecuteAfter cfg env s sid toolName).state ≤
        toastBudget s := by
  unfold toolExecuteAfter
  cases ht : truthySid (jsOrStr sid s.currentSessionId) <;> simp only [ht]
  case none => simp
  case some i =>
    have h0 := esi_toast_budget cfg env s i none
    simp [List.countP_append, List.countP_cons, Effect.isStartupToast]
    omega

theorem command_toast_budget (cfg : Cfg) (env : Env) (s : PluginState)
    (command : String) (sid : Option String) :
    (commandExecuteBefore cfg env s command sid).effects.countP
        Effect.isStartupToast +
      toastBudget (commandExecuteBefore cfg env s command sid).state ≤
        toastBudget s := by
  unfold commandExecuteBefore
  by_cases hcmd : command ≠ "memory"
  · simp [hcmd]
  · simp only [hcmd, if_false]
    cases ht : truthySid (jsOrStr sid s.currentSessionId) <;> simp only [ht]
    · simp
    · by_cases hc : (checkWorkerAndToast env s).ret = false
      · have h1 := cw_toast_budget env s
        simp [hc, List.countP_append, List.countP_cons, Effect.isStartupToast]
        omega
      · have h1 := cw_toast_budget env s
        have h2 := gcc_no_toast cfg env (checkWorkerAndToast env s).state
        have h3 := toastBudget_congr
          (getCachedContext cfg env (checkWorkerAndToast env s).state).state
          (checkWorkerAndToast env s).state
          (gcc_toastShown cfg env (checkWorkerAndToast env s).state)
        cases hg : truthySid
            (getCachedContext cfg env (checkWorkerAndToast env s).state).ret <;>
          simp [hc, hg, List.countP_append, List.countP_cons,
            Effect.isStartupToast, h2, h3] <;> omega

theorem memSearch_toast_budget (cfg : Cfg) (env : Env) (s : PluginState)
    (query : String) :
    (memSearchTool cfg env s query).effects.countP Effect.isStartupToast +
      toastBudget (memSearchTool cfg env s query).state ≤ toastBudget s := by
  simp [memSearchTool, List.countP_cons, Effect.isStartupToast]

theorem step_toast_budget (cfg : Cfg) (env : Env) (s : PluginState)
    (hk : HookCall) :
    (stepHook cfg env s hk).2.countP Effect.isStartupToast +
      toastBudget (stepHook cfg env s hk).1 ≤ toastBudget s := by
  cases hk <;>
    simp only [stepHook] <;>
    first
      | exact created_toast_budget env s _
      | exact idle_toast_budget env s _
      | exact chat_toast_budget cfg env s _ _
      | exact xform_toast_budget cfg env s _ _
      | exact toolAfter_toast_budget cfg env s _ _
      | exact command_toast_budget cfg env s _ _
      | exact memSearch_toast_budget cfg env s _

theorem run_toast_budget (cfg : Cfg) (s : PluginState)
    (l : List (HookCall × Env)) :
    (runHooks cfg s l).2.countP Effect.isStartupToast +
      toastBudget (runHooks cfg s l).1 ≤ toastBudget s := by
  induction l generalizing s with
  | nil => simp [runHooks]
  | cons he rest ih =>
    have h1 := step_toast_budget cfg he.2 s he.1
    have h2 := ih (stepHook cfg he.2 s he.1).1
    simp only [runHooks, List.countP_append]
    omega

theorem created_flag_of_memo (env : Env) (s : PluginState) (sid : Option String)
    (b : Bool) (h : s.workerHealthy = some b) :
    (eventSessionCreated env s sid).state.workerHealthy = some b := by
  cases ht : truthySid sid
  · simp [eventSessionCreated, ht, h]
  · simp only [eventSessionCreated, ht]
    exact cw_flag_of_memo env _ b h

theorem idle_flag_of_memo (env : Env) (s : PluginState) (sid : Option String)
    (b : Bool) (h : s.workerHealthy = some b) :
    (eventSessionIdle env s sid).state.workerHealthy = some b := by
  cases ht : truthySid (jsOrStr sid s.currentSessionId) <;>
    simp [eventSessionIdle, ht, h]

theorem chat_flag_of_memo (cfg : Cfg) (env : Env) (s : PluginState)
    (sid : Option String) (parts : List MsgPart) (b : Bool)
    (h : s.workerHealthy = some b) :
    (chatMessageHook cfg env s sid parts).state.workerHealthy = some b := by
  cases sid with
  | none => simp [chatMessageHook, h]
  | some i =>
    by_cases hi : i = ""
    · simp [chatMessageHook, hi, h]
    · simp only [chatMessageHook, hi, if_false]
      exact esi_workerHealthy_of_memo cfg env s i _ b h

theorem xform_flag_of_memo (cfg : Cfg) (env : Env) (s : PluginState)
    (sid : Option String) (system : List String) (b : Bool)
    (h : s.workerHealthy = some b) :
    (systemTransform cfg env s sid system).state.workerHealthy = some b := by
  unfold systemTransform
  cases ht : truthySid sid <;> simp only [ht]
  case none =>
    have h1 := cw_flag_of_memo env s b h
    by_cases hc : (checkWorkerAndToast env s).ret = false
    · simp [hc, h1]
    · have h2 := gcc_workerHealthy cfg env (checkWorkerAndToast env s).state
      cases hg : (getCachedContext cfg env (checkWorkerAndToast env s).state).ret <;>
        simp [hc, hg, h2, h1]
  case some i =>
    have h0 := esi_workerHealthy_of_memo cfg env s i none b h
    have h1 := cw_flag_of_memo env (ensureSessionInit cfg env s i none).state b h0
    by_cases hc :
        (checkWorkerAndToast env (ensureSessionInit cfg env s i none).state).ret =
          false
    · simp [hc, h1]
    · have h2 := gcc_workerHealthy cfg env
        (checkWorkerAndToast env (ensureSessionInit cfg env s i none).state).state
      cases hg : (getCachedContext cfg env
          (checkWorkerAndToast env (ensureSessionInit cfg env s i none).state).state).ret <;>
        simp [hc, hg, h2, h1]

theorem toolAfter_flag_of_memo (cfg : Cfg) (env : Env) (s : PluginState)
    (sid : Option String) (toolName : String) (b : Bool)
    (h : s.workerHealthy = some b) :
    (toolExecuteAfter cfg env s sid toolName).state.workerHealthy = some b := by
  unfold toolExecuteAfter
  cases ht : truthySid (jsOrStr sid s.currentSessionId) <;> simp only [ht]
  case none => simpa using h
  case some i => exact esi_workerHealthy_of_memo cfg env s i none b h

theorem command_flag_of_memo (cfg : Cfg) (env : Env) (s : PluginState)
    (command : String) (sid : Option String) (b : Bool)
    (h : s.workerHealthy = some b) :
    (commandExecuteBefore cfg env s command sid).state.workerHealthy =
      some b := by
  unfold commandExecuteBefore
  by_cases hcmd : command ≠ "memory"
  · simp [hcmd, h]
  · simp only [hcmd, if_false]
    cases ht : truthySid (jsOrStr sid s.currentSessionId) <;> simp only [ht]
    · simpa using h
    · have h1 := cw_flag_of_memo env s b h
      by_cases hc : (checkWorkerAndToast env s).ret = false
      · simp [hc, h1]
      · have h2 := gcc_workerHealthy cfg env (checkWorkerAndToast env s).state
        cases hg : truthySid
            (getCachedContext cfg env (checkWorkerAndToast env s).state).ret <;>
          simp [hc, hg, h2, h1]

theorem memSearch_flag_of_memo (cfg : Cfg) (env : Env) (s : PluginState)
    (query : String) (b : Bool) (h : s.workerHealthy = some b) :
    (memSearchTool cfg env s query).state.workerHealthy = some b := by
  simpa [memSearchTool] using h

theorem step_flag_of_memo (cfg : Cfg) (env : Env) (s : PluginState)
    (hk : HookCall) (b : Bool) (h : s.workerHealthy = some b) :
    (stepHook cfg env s hk).1.workerHealthy = some b := by
  cases hk <;>
    simp only [stepHook] <;>
    first
      | exact created_flag_of_memo env s _ b h
      | exact idle_flag_of_memo env s _ b h
      | exact chat_flag_of_memo cfg env s _ _ b h
      | exact xform_flag_of_memo cfg env s _ _ b h
      | exact toolAfter_flag_of_memo cfg env s _ _ b h
      | exact command_flag_of_memo cfg env s _ _ b h
      | exact memSearch_flag_of_memo cfg env s _ b h

theorem step_no_probe_of_memo (cfg : Cfg) (env : Env) (s : PluginState)
    (hk : HookCall) (b : Bool) (h : s.workerHealthy = some b) :
    (stepHook cfg env s hk).2.countP Effect.isProbe = 0 := by
  have hb := step_probe_budget cfg env s hk
  have h0 : probeBudget s = 0 := by
    unfold probeBudget
    rw [h]
  omega

theorem lastMessageText_of_texts (role a b : String) (ms : List Message)
    (h : (ms.filter fun m => m.role == role).map
        (fun m => extractTextFromParts m.parts) = [a, b]) :
    lastMessageText role ms = b := by
  unfold lastMessageText
  have h1 : ms.reverse.find? (fun m => m.role == role) =
      ((ms.filter fun m => m.role == role).reverse).head? := by
    rw [← List.filter_head?, List.filter_reverse]
  rw [h1]
  have h2 : ((ms.filter fun m => m.role == role).reverse).head?.map
      (fun m => extractTextFromParts m.parts) = some b := by
    rw [← List.head?_map, List.map_reverse, h]
    rfl
  obtain ⟨m, hm, hme⟩ := Option.map_eq_some'.mp h2
  rw [hm]
  exact hme

/-- Repeated sequential invocations of `ensureSessionInit` for one session
identifier, each under its own oracle and prompt, with the returned booleans
and the concatenated effect trace. -/
def runEnsureSessionInit (cfg : Cfg) (s : PluginState) (sid : String) :
    List (Env × Option String) → List Bool × PluginState × List Effect
  | [] => ([], s, [])
  | (env, p) :: rest =>
    let e := ensureSessionInit cfg env s sid p
    let tail := runEnsureSessionInit cfg e.state sid rest
    (e.ret :: tail.1, tail.2.1, e.effects ++ tail.2.2)

theorem runESI_init_budget (cfg : Cfg) (s : PluginState) (sid : String)
    (l : List (Env × Option String)) :
    (runEnsureSessionInit cfg s sid l).2.2.countP Effect.isSessionInitCall +
      initBudget sid (runEnsureSessionInit cfg s sid l).2.1 ≤
        initBudget sid s := by
  induction l generalizing s with
  | nil => simp [runEnsureSessionInit]
  | cons ep rest ih =>
    have h1 := esi_init_budget cfg ep.1 s sid ep.2
    have h2 := ih (ensureSessionInit cfg ep.1 s sid ep.2).state
    simp only [runEnsureSessionInit, List.countP_append]
    omega

/-- Repeated sequential invocations of `getCachedContext`, each under its own
oracle, with the returned values and the concatenated effect trace. -/
def runGetCachedContext (cfg : Cfg) (s : PluginState) :
    List Env → List (Option String) × PluginState × List Effect
  | [] => ([], s, [])
  | env :: rest =>
    let g := getCachedContext cfg env s
    let tail := runGetCachedContext cfg g.state rest
    (g.ret :: tail.1, tail.2.1, g.effects ++ tail.2.2)

theorem runGCC_fetch_budget (cfg : Cfg) (s : PluginState) (l : List Env) :
    (runGetCachedContext cfg s l).2.2.countP Effect.isContextFetch +
      fetchBudget (runGetCachedContext cfg s l).2.1 ≤ fetchBudget s := by
  induction l generalizing s with
  | nil => simp [runGetCachedContext]
  | cons env rest ih =>
    have h1 := gcc_fetch_budget cfg env s
    have h2 := ih (getCachedContext cfg env s).state
    simp only [runGetCachedContext, List.countP_append]
    omega

theorem runGCC_of_cached (cfg : Cfg) (s : PluginState) (l : List Env)
    (v : Option String) (h : s.contextCache = some v) :
    (runGetCachedContext cfg s l).2.2.countP Effect.isContextFetch = 0 ∧
      (runGetCachedContext cfg s l).1 = l.map (fun _ => v) := by
  induction l generalizing s with
  | nil => simp [runGetCachedContext]
  | cons env rest ih =>
    have h1 := gcc_of_cached cfg env s v h
    have h2 := ih s h
    simp [runGetCachedContext, h1, List.countP_append, h2]

theorem toastBudget_eq_zero (s : PluginState) (h : toastBudget s = 0) :
    s.initToastShown = true := by
  unfold toastBudget at h
  by_cases hs : s.initToastShown
  · exact hs
  · simp [hs] at h

theorem xform_ret_of_unhealthy (cfg : Cfg) (env : Env) (s : PluginState)
    (sid : Option String) (system : List String)
    (h : s.workerHealthy = some false) :
    (systemTransform cfg env s sid system).ret = system := by
  unfold systemTransform
  cases ht : truthySid sid <;> simp only [ht]
  case none =>
    have hc := cw_ret_of_memo env s false h
    simp [hc]
  case some i =>
    have h0 := esi_workerHealthy_of_memo cfg env s i none false h
    have hc := cw_ret_of_memo env (ensureSessionInit cfg env s i none).state false h0
    simp [hc]

/-- A fixed configuration used for concrete evaluations. -/
def demoCfg : Cfg :=
  { projectName := "demo-project", projectRoot := "/work/demo" }

/-- An oracle where the worker is healthy but `/api/sessions/init` answers
with a non-OK HTTP status (so `WorkerClient.sessionInit` returns `null`). -/
def envInitFails : Env :=
  { healthResult := true
    initResp := .resp false .null
    ctxResp := .resp true .null
    messages := none
    searchResp := .resp true .null }

/-- An oracle where the worker is offline: the probe fails and every remote
call throws. -/
def envOffline : Env :=
  { healthResult := false
    initResp := .fail "fetch failed"
    ctxResp := .fail "fetch failed"
    messages := none
    searchResp := .fail "fetch failed" }

/-- The state reached after the first health check found the worker
unhealthy (flag memoized to `false`, startup toast already shown). -/
def memoUnhealthyState : PluginState :=
  { initialPluginState with workerHealthy := some false, initToastShown := true }

/-- The state reached after the first health check found the worker healthy. -/
def memoHealthyState : PluginState :=
  { initialPluginState with workerHealthy := some true, initToastShown := true }

/-- A state in which session "s1" is already recorded as initialized. -/
def memberState : PluginState :=
  { initialPluginState with initializedSessions := ["s1"] }

/-- A state whose context-cache slot holds a fetched value. -/
def cachedState : PluginState :=
  { initialPluginState with contextCache := some (some "ctx") }

/-- C1: the claim says a session identifier enters `initializedSessions`
only after a successful remote initialization, failed attempts leaving it
absent for a later retry.  The code does the opposite: `WorkerClient.sessionInit`
maps a failed remote call to `null` without throwing, `ensureSessionInit`
ignores that return value, so a failed remote init still marks the session
initialized and returns true.  This theorem evaluates the embedded code at
the failing input: worker healthy, `/api/sessions/init` answering non-OK. -/
theorem c1_failed_remote_init_still_marks_session :
    workerSessionInit envInitFails.initResp = none ∧
      (ensureSessionInit demoCfg envInitFails initialPluginState "s1" none).ret =
        true ∧
      "s1" ∈ (ensureSessionInit demoCfg envInitFails initialPluginState "s1"
        none).state.initializedSessions := by
  refine ⟨rfl, rfl, ?_⟩
  decide

/-- C2 counterexample: the claim says that with the health check memoized
unhealthy the tool-execution-after handler sends no observation to the
worker.  At the concrete reachable state with `workerHealthy = some false`,
the handler still performs exactly one observation call (its result is
ignored): the claim as stated is false. -/
theorem c2_counterexample :
    memoUnhealthyState.workerHealthy = some false ∧
      (toolExecuteAfter demoCfg envOffline memoUnhealthyState (some "s1")
          "bash").effects.countP Effect.isObservation = 1 := by
  exact ⟨rfl, by decide⟩

/-- C2 (amended): when the memoized health check is unhealthy,
`ensureSessionInit` (for a session not yet recorded) returns false with no
remote initialization call, and the system-prompt transform leaves the
outgoing system prompt unchanged; the tool-execution-after handler performs
no initialization call either but still sends exactly one observation
whenever a session id resolves.  All three are total functions of the
embedding (the source swallows every exception), so none throws. -/
theorem c2_unhealthy_degrades (cfg : Cfg) (env : Env) (s : PluginState)
    (sid : String) (p : Option String) (sid2 sid3 : Option String)
    (system : List String) (tool i : String)
    (h : s.workerHealthy = some false) (hm : sid ∉ s.initializedSessions)
    (h3 : truthySid (jsOrStr sid3 s.currentSessionId) = some i) :
    (ensureSessionInit cfg env s sid p).ret = false ∧
      (ensureSessionInit cfg env s sid p).effects.countP
        Effect.isSessionInitCall = 0 ∧
      (systemTransform cfg env s sid2 system).ret = system ∧
      (toolExecuteAfter cfg env s sid3 tool).effects.countP
        Effect.isSessionInitCall = 0 ∧
      (toolExecuteAfter cfg env s sid3 tool).effects.countP
        Effect.isObservation = 1 := by
  obtain ⟨r1, r2⟩ := esi_unhealthy cfg env s sid p h hm
  refine ⟨r1, r2, xform_ret_of_unhealthy cfg env s sid2 system h, ?_, ?_⟩
  · simp only [toolExecuteAfter, h3]
    rw [List.countP_append]
    have h4 : (ensureSessionInit cfg env s i none).effects.countP
        Effect.isSessionInitCall = 0 := by
      by_cases hm2 : i ∈ s.initializedSessions
      · rw [esi_of_mem cfg env s i none hm2]
        rfl
      · exact (esi_unhealthy cfg env s i none h hm2).2
    simp [h4, List.countP_cons, Effect.isSessionInitCall]
  · simp only [toolExecuteAfter, h3]
    rw [List.countP_append]
    have h4 := esi_no_observation cfg env s i none
    simp [h4, List.countP_cons, Effect.isObservation]

theorem c2_witness :
    (ensureSessionInit demoCfg envOffline memoUnhealthyState "s1" none).ret =
        false ∧
      (systemTransform demoCfg envOffline memoUnhealthyState (some "s1")
        []).ret = [] :=
  ⟨(c2_unhealthy_degrades demoCfg envOffline memoUnhealthyState "s1" none
      (some "s1") (some "s1") [] "bash" "s1" rfl (by decide) rfl).1,
    (c2_unhealthy_degrades demoCfg envOffline memoUnhealthyState "s1" none
      (some "s1") (some "s1") [] "bash" "s1" rfl (by decide) rfl).2.2.1⟩

/-- C3: `ensureSessionInit` is idempotent per session identifier: any
sequence of sequential calls for the same identifier performs at most one
remote initialization call (in particular at most one successful one), and
once the identifier is in `initializedSessions` every call returns true
immediately with no state change and no effects (no network call). -/
theorem c3_ensure_session_init_idempotent (cfg : Cfg) (s : PluginState)
    (sid : String) (l : List (Env × Option String)) :
    (runEnsureSessionInit cfg s sid l).2.2.countP Effect.isSessionInitCall ≤
        1 ∧
      ∀ env p, sid ∈ s.initializedSessions →
        ensureSessionInit cfg env s sid p = ⟨true, s, []⟩ := by
  constructor
  · have h := runESI_init_budget cfg s sid l
    have h1 : initBudget sid s ≤ 1 := by
      unfold initBudget
      split <;> omega
    omega
  · intro env p hm
    exact esi_of_mem cfg env s sid p hm

theorem c3_witness :
    (runEnsureSessionInit demoCfg memberState "s1"
        [(envInitFails, none)]).2.2.countP Effect.isSessionInitCall ≤ 1 ∧
      ensureSessionInit demoCfg envInitFails memberState "s1" none =
        ⟨true, memberState, []⟩ :=
  ⟨(c3_ensure_session_init_idempotent demoCfg memberState "s1"
      [(envInitFails, none)]).1,
    (c3_ensure_session_init_idempotent demoCfg memberState "s1"
      [(envInitFails, none)]).2 envInitFails none (by decide)⟩

/-- C4: when a session-idle event fires for a resolvable session id and the
message history's user-message texts are exactly ["a", "b"] and its
assistant-message texts exactly ["x", "y"] (in order), the handler calls
summarize with the most recent of each role ("b" and "y", found by scanning
from the end) and then calls completeSession exactly once. -/
theorem c4_idle_summarizes_last_messages (env : Env) (s : PluginState)
    (eventSid : Option String) (i : String) (ms : List Message)
    (hsid : truthySid (jsOrStr eventSid s.currentSessionId) = some i)
    (hmsg : env.messages = some ms)
    (hu : (ms.filter fun m => m.role == "user").map
      (fun m => extractTextFromParts m.parts) = ["a", "b"])
    (ha : (ms.filter fun m => m.role == "assistant").map
      (fun m => extractTextFromParts m.parts) = ["x", "y"]) :
    (eventSessionIdle env s eventSid).effects =
        [Effect.summarizeCall i "b" "y", Effect.completeCall i,
          Effect.toastMsg "Session summarized"] ∧
      (eventSessionIdle env s eventSid).effects.countP Effect.isComplete =
        1 := by
  have hu' := lastMessageText_of_texts "user" "a" "b" ms hu
  have ha' := lastMessageText_of_texts "assistant" "x" "y" ms ha
  have heff : (eventSessionIdle env s eventSid).effects =
      [Effect.summarizeCall i "b" "y", Effect.completeCall i,
        Effect.toastMsg "Session summarized"] := by
    simp only [eventSessionIdle, hsid, hmsg]
    rw [hu', ha']
  refine ⟨heff, ?_⟩
  rw [heff]
  rfl

/-- The concrete four-message history of the C4 scenario. -/
def demoMessages : List Message :=
  [⟨"user", [⟨"text", some "a"⟩]⟩,
    ⟨"assistant", [⟨"text", some "x"⟩]⟩,
    ⟨"user", [⟨"text", some "b"⟩]⟩,
    ⟨"assistant", [⟨"text", some "y"⟩]⟩]

/-- An oracle whose message-history fetch returns the C4 scenario. -/
def idleEnv : Env :=
  { healthResult := true
    initResp := .resp true .null
    ctxResp := .resp true .null
    messages := some demoMessages
    searchResp := .resp true .null }

theorem c4_witness :
    (eventSessionIdle idleEnv initialPluginState (some "s1")).effects =
        [Effect.summarizeCall "s1" "b" "y", Effect.completeCall "s1",
          Effect.toastMsg "Session summarized"] ∧
      (eventSessionIdle idleEnv initialPluginState (some "s1")).effects.countP
        Effect.isComplete = 1 :=
  c4_idle_summarizes_last_messages idleEnv initialPluginState (some "s1")
    "s1" demoMessages rfl rfl (by decide) (by decide)

/-- C5: a `getContext` response whose body is the empty JSON object or the
JSON literal null yields an absent value (never a string), whatever the
response status flag. -/
theorem c5_placeholder_context_absent (ok : Bool) :
    getContext (.resp ok (.obj .nil)) = none ∧
      getContext (.resp ok .null) = none := by
  cases ok <;> exact ⟨rfl, rfl⟩

/-- C6: the health flag is computed by at most one remote probe per process:
once any hook has memoized `workerHealthy = some b`, every later hook
invocation performs zero probes and leaves the flag at `some b`, and any
hook sequence from the initial state performs at most one probe in total. -/
theorem c6_health_probe_once :
    (∀ cfg env s hk b, s.workerHealthy = some b →
        (stepHook cfg env s hk).2.countP Effect.isProbe = 0 ∧
          (stepHook cfg env s hk).1.workerHealthy = some b) ∧
      ∀ cfg l,
        (runHooks cfg initialPluginState l).2.countP Effect.isProbe ≤ 1 := by
  constructor
  · intro cfg env s hk b h
    exact ⟨step_no_probe_of_memo cfg env s hk b h,
      step_flag_of_memo cfg env s hk b h⟩
  · intro cfg l
    have h := run_probe_budget cfg initialPluginState l
    have h0 : probeBudget initialPluginState = 1 := rfl
    omega

theorem c6_witness :
    (stepHook demoCfg envInitFails memoHealthyState
        (.memSearch "q")).2.countP Effect.isProbe = 0 ∧
      (stepHook demoCfg envInitFails memoHealthyState
        (.memSearch "q")).1.workerHealthy = some true :=
  c6_health_probe_once.1 demoCfg envInitFails memoHealthyState
    (.memSearch "q") true rfl

/-- C7: every session-created event carrying an identifier resets the
context-cache slot to its uninitialized state and leaves
`initializedSessions` untouched; this holds over any nonempty sequence of
duplicate events with the same identifier. -/
theorem c7_created_invalidates_cache_only (cfg : Cfg) (s : PluginState)
    (sid : String) (envs : List Env) (h1 : sid ≠ "") (h2 : envs ≠ []) :
    (runHooks cfg s (envs.map fun env =>
        (HookCall.sessionCreated (some sid), env))).1.contextCache = none ∧
      (runHooks cfg s (envs.map fun env =>
        (HookCall.sessionCreated (some sid), env))).1.initializedSessions =
          s.initializedSessions := by
  have ht : truthySid (some sid) = some sid := by simp [truthySid, h1]
  revert h2
  induction envs generalizing s with
  | nil => intro h2; exact absurd rfl h2
  | cons env rest ih =>
    intro _
    cases rest with
    | nil =>
      simp only [List.map_cons, List.map_nil, runHooks, stepHook,
        eventSessionCreated, ht]
      rw [cw_contextCache, cw_sessions]
      exact ⟨rfl, rfl⟩
    | cons env2 rest2 =>
      have hr := ih (eventSessionCreated env s (some sid)).state (by simp)
      simp only [List.map_cons, runHooks, stepHook] at hr ⊢
      refine ⟨hr.1, ?_⟩
      rw [hr.2]
      simp only [eventSessionCreated, ht]
      rw [cw_sessions]

theorem c7_witness :
    (runHooks demoCfg initialPluginState
        ([envOffline].map fun env =>
          (HookCall.sessionCreated (some "s1"), env))).1.contextCache =
        none ∧
      (runHooks demoCfg initialPluginState
        ([envOffline].map fun env =>
          (HookCall.sessionCreated (some "s1"), env))).1.initializedSessions =
          initialPluginState.initializedSessions :=
  c7_created_invalidates_cache_only demoCfg initialPluginState "s1"
    [envOffline] (by decide) (List.cons_ne_nil _ _)

/-- C8: the startup toast fires exactly once per process: the first
invocation of `checkWorkerAndToast` (the flag still unset) emits exactly one
startup toast; once the flag is set every hook invocation emits none and
keeps the flag set; and any hook sequence from the initial state emits at
most one startup toast in total. -/
theorem c8_startup_toast_once :
    (∀ env s, s.initToastShown = false →
        (checkWorkerAndToast env s).effects.countP Effect.isStartupToast =
          1) ∧
      (∀ cfg env s hk, s.initToastShown = true →
          (stepHook cfg env s hk).2.countP Effect.isStartupToast = 0 ∧
            (stepHook cfg env s hk).1.initToastShown = true) ∧
      ∀ cfg l,
        (runHooks cfg initialPluginState l).2.countP Effect.isStartupToast ≤
          1 := by
  refine ⟨?_, ?_, ?_⟩
  · intro env s h
    have hc := cw_toast_count env s
    simpa [toastBudget, h] using hc
  · intro cfg env s hk h
    have hb := step_toast_budget cfg env s hk
    have h0 : toastBudget s = 0 := by simp [toastBudget, h]
    have hc : (stepHook cfg env s hk).2.countP Effect.isStartupToast = 0 ∧
        toastBudget (stepHook cfg env s hk).1 = 0 := by omega
    exact ⟨hc.1, toastBudget_eq_zero _ hc.2⟩
  · intro cfg l
    have h := run_toast_budget cfg initialPluginState l
    have h0 : toastBudget initialPluginState = 1 := rfl
    omega

theorem c8_witness :
    (checkWorkerAndToast envOffline initialPluginState).effects.countP
        Effect.isStartupToast = 1 ∧
      (stepHook demoCfg envInitFails memoHealthyState
        (.sessionIdle (some "s1"))).2.countP Effect.isStartupToast = 0 :=
  ⟨c8_startup_toast_once.1 envOffline initialPluginState rfl,
    (c8_startup_toast_once.2.1 demoCfg envInitFails memoHealthyState
      (.sessionIdle (some "s1")) rfl).1⟩

/-- C9: `search` is a total function of the HTTP outcome (the source wraps
everything in try/catch, so it never throws) and always returns a string: a
non-OK status yields "Search failed", a thrown exception yields the
descriptive error string, and a successful response yields the serialized
JSON payload. -/
theorem c9_search_total (e : String) (b : JsonVal) :
    searchImpl (.fail e) = "Error performing search: " ++ e ∧
      searchImpl (.resp false b) = "Search failed" ∧
      searchImpl (.resp true b) = jsonStringify "" b :=
  ⟨rfl, rfl, rfl⟩

/-- C10: between cache invalidations `getCachedContext` performs at most one
remote fetch, and once the slot holds a fetched value v (possibly the null
result of a fetch), every subsequent call returns v with no network call. -/
theorem c10_cached_context_single_fetch (cfg : Cfg) (s : PluginState)
    (l : List Env) :
    (runGetCachedContext cfg s l).2.2.countP Effect.isContextFetch ≤ 1 ∧
      ∀ v, s.contextCache = some v →
        (runGetCachedContext cfg s l).2.2.countP Effect.isContextFetch = 0 ∧
          (runGetCachedContext cfg s l).1 = l.map (fun _ => v) := by
  constructor
  · have h := runGCC_fetch_budget cfg s l
    have h1 : fetchBudget s ≤ 1 := by
      unfold fetchBudget
      cases s.contextCache <;> simp
    omega
  · intro v hv
    exact runGCC_of_cached cfg s l v hv

theorem c10_witness :
    (runGetCachedContext demoCfg cachedState [envInitFails]).2.2.countP
        Effect.isContextFetch = 0 ∧
      (runGetCachedContext demoCfg cachedState [envInitFails]).1 =
        [envInitFails].map (fun _ => some "ctx") :=
  (c10_cached_context_single_fetch demoCfg cachedState [envInitFails]).2
    (some "ctx") rfl

